import Mathlib

/-!
Verification development for the keebler ELF decoding/encoding library
(`src/lib.rs`). The library is written against the parcel parser-combinator
crate: every parser maps a byte slice to `Ok(MatchStatus)` where
`MatchStatus::Match((rest, value))` carries the unconsumed suffix and
`MatchStatus::NoMatch(orig)` carries the original slice. Rust panics
(out-of-bounds slicing, `unwrap` on `Err`) are modelled as `none`.
Bytes are modelled as `Nat` values (concrete inputs always use values
below 256); byte slices are `List Nat` suffixes of the input buffer.
-/

namespace Keebler

/-- Parcel MatchStatus: a match carries the remaining input and the value;
a no-match carries the input slice returned by the failing parser. -/
inductive MatchStatus (α : Type) where
  | ok : List Nat → α → MatchStatus α
  | noMatch : List Nat → MatchStatus α
deriving DecidableEq

/-- A parser over byte slices. `none` models a Rust panic. -/
abbrev Parser (α : Type) := List Nat → Option (MatchStatus α)

/-- parcel Parser::map - maps the matched value. -/
def pMap (p : Parser α) (f : α → β) : Parser β := fun input =>
  match p input with
  | none => none
  | some (.noMatch r) => some (.noMatch r)
  | some (.ok rest v) => some (.ok rest (f v))

/-- parcel::join - sequences two parsers, backtracking to the original
input when either fails. -/
def pJoin (p : Parser α) (q : Parser β) : Parser (α × β) := fun input =>
  match p input with
  | none => none
  | some (.noMatch _) => some (.noMatch input)
  | some (.ok rest v) =>
    match q rest with
    | none => none
    | some (.noMatch _) => some (.noMatch input)
    | some (.ok rest2 w) => some (.ok rest2 (v, w))

/-- parcel::right - keeps the second component of a joined pair. -/
def pRight (p : Parser (α × β)) : Parser β := pMap p Prod.snd

/-- parcel Parser::and_then - monadic sequencing. -/
def pAndThen (p : Parser α) (f : α → Parser β) : Parser β := fun input =>
  match p input with
  | none => none
  | some (.noMatch _) => some (.noMatch input)
  | some (.ok rest v) =>
    match f v rest with
    | none => none
    | some (.noMatch _) => some (.noMatch input)
    | some (.ok rest2 w) => some (.ok rest2 w)

/-- parcel Parser::or - tries the alternative on the original input. -/
def pOr (p : Parser α) (q : Parser α) : Parser α := fun input =>
  match p input with
  | none => none
  | some (.ok rest v) => some (.ok rest v)
  | some (.noMatch _) => q input

/-- parcel::one_of - first matching alternative wins. -/
def pOneOf : List (Parser α) → Parser α
  | [] => fun input => some (.noMatch input)
  | p :: ps => pOr p (pOneOf ps)

/-- parcel::take_n - matches the parser exactly n times. -/
def pTakeN (p : Parser α) : Nat → Parser (List α)
  | 0 => fun input => some (.ok input [])
  | n + 1 => fun input =>
    match p input with
    | none => none
    | some (.noMatch _) => some (.noMatch input)
    | some (.ok rest v) =>
      match pTakeN p n rest with
      | none => none
      | some (.noMatch _) => some (.noMatch input)
      | some (.ok rest2 vs) => some (.ok rest2 (v :: vs))

/-- parcel byte::any_byte - consumes one byte. -/
def anyByte : Parser Nat := fun input =>
  match input with
  | [] => some (.noMatch [])
  | b :: rest => some (.ok rest b)

/-- parcel byte::expect_byte - consumes one byte equal to the expected one. -/
def expectByte (b : Nat) : Parser Nat := fun input =>
  match input with
  | [] => some (.noMatch [])
  | c :: rest => if c = b then some (.ok rest b) else some (.noMatch (c :: rest))

/-- EiData - endianness selector (src byte values: Little = 1, Big = 2).
The generic DataEncoding phantom parameters of the source are modelled by
passing the corresponding EiData value to each parser. -/
inductive EiData where
  | Little
  | Big
deriving DecidableEq

/-- Value of a byte list read little-endian, as in uN::from_le_bytes. -/
def bytesToNatLE : List Nat → Nat
  | [] => 0
  | b :: bs => b + 256 * bytesToNatLE bs

/-- Integer value of a byte list under the given endianness. -/
def eVal (e : EiData) (bs : List Nat) : Nat :=
  match e with
  | .Little => bytesToNatLE bs
  | .Big => bytesToNatLE bs.reverse

/-- u16::to_le_bytes / to_be_bytes. -/
def u16Bytes (e : EiData) (v : Nat) : List Nat :=
  match e with
  | .Little => [v % 256, v / 256 % 256]
  | .Big => [v / 256 % 256, v % 256]

/-- u32::to_le_bytes / to_be_bytes. -/
def u32Bytes (e : EiData) (v : Nat) : List Nat :=
  match e with
  | .Little => [v % 256, v / 256 % 256, v / 65536 % 256, v / 16777216 % 256]
  | .Big => [v / 16777216 % 256, v / 65536 % 256, v / 256 % 256, v % 256]

/-- u64::to_le_bytes / to_be_bytes. -/
def u64Bytes (e : EiData) (v : Nat) : List Nat :=
  match e with
  | .Little =>
    [v % 256, v / 256 % 256, v / 65536 % 256, v / 16777216 % 256,
     v / 4294967296 % 256, v / 1099511627776 % 256,
     v / 281474976710656 % 256, v / 72057594037927936 % 256]
  | .Big =>
    [v / 72057594037927936 % 256, v / 281474976710656 % 256,
     v / 1099511627776 % 256, v / 4294967296 % 256,
     v / 16777216 % 256, v / 65536 % 256, v / 256 % 256, v % 256]

/-- match_u16 - take_n(any_byte, 2) mapped through from_le/be_bytes. -/
def matchU16 (e : EiData) : Parser Nat :=
  pMap (pTakeN anyByte 2) (eVal e)

/-- match_u32 - take_n(any_byte, 4) mapped through from_le/be_bytes. -/
def matchU32 (e : EiData) : Parser Nat :=
  pMap (pTakeN anyByte 4) (eVal e)

/-- match_u64 - take_n(any_byte, 8) mapped through from_le/be_bytes. -/
def matchU64 (e : EiData) : Parser Nat :=
  pMap (pTakeN anyByte 8) (eVal e)

/-- expect_bytes - compares the next expected.len() bytes against the literal;
NoMatch returns the original slice. -/
def expectBytes (expected : List Nat) : Parser (List Nat) := fun input =>
  if input.take expected.length = expected then
    some (.ok (input.drop expected.length) expected)
  else
    some (.noMatch input)

/-- expect_u16 - match_u16 filtered to one expected value. -/
def expectU16 (e : EiData) (expected : Nat) : Parser Nat := fun input =>
  match matchU16 e input with
  | none => none
  | some (.ok rest v) =>
    if v = expected then some (.ok rest expected) else some (.noMatch input)
  | some (.noMatch _) => some (.noMatch input)

/-- expect_u32 - match_u32 filtered to one expected value. -/
def expectU32 (e : EiData) (expected : Nat) : Parser Nat := fun input =>
  match matchU32 e input with
  | none => none
  | some (.ok rest v) =>
    if v = expected then some (.ok rest expected) else some (.noMatch input)
  | some (.noMatch _) => some (.noMatch input)

/-- expect_u64 - match_u64 filtered to one expected value. -/
def expectU64 (e : EiData) (expected : Nat) : Parser Nat := fun input =>
  match matchU64 e input with
  | none => none
  | some (.ok rest v) =>
    if v = expected then some (.ok rest expected) else some (.noMatch input)
  | some (.noMatch _) => some (.noMatch input)

/-- EiClass - 32-bit or 64-bit class byte (0x01 / 0x02). -/
inductive EiClass where
  | ThirtyTwoBit
  | SixtyFourBit
deriving DecidableEq

/-- EiClassParser - one_of over the two class bytes. -/
def parseEiClass : Parser EiClass :=
  pOneOf [
    pMap (expectByte 0x01) (fun _ => EiClass.ThirtyTwoBit),
    pMap (expectByte 0x02) (fun _ => EiClass.SixtyFourBit)]

/-- EiDataParser - one_of over the two data-encoding bytes. -/
def parseEiData : Parser EiData :=
  pOneOf [
    pMap (expectByte 0x01) (fun _ => EiData.Little),
    pMap (expectByte 0x02) (fun _ => EiData.Big)]

/-- EiVersion - only version byte 0x01 is accepted. -/
inductive EiVersion where
  | One
deriving DecidableEq

/-- EiVersionParser - expects the single 0x01 byte. -/
def parseEiVersion : Parser EiVersion :=
  pMap (expectByte 0x01) (fun _ => EiVersion.One)

/-- EiOsAbi - the 18 OS/ABI byte values known to the source. -/
inductive EiOsAbi where
  | SysV | HPUX | NetBSD | Linux | GNUHurd | Solaris | AIX | IRIX
  | FreeBSD | Tru64 | Novell | OpenBSD | OpenVMS | NonStop | Aros
  | Fenix | CloudABI | OpenVOS
deriving DecidableEq, Fintype

/-- Discriminant of each EiOsAbi variant (note 0x05 is absent). -/
def osAbiToU8 : EiOsAbi → Nat
  | .SysV => 0x00
  | .HPUX => 0x01
  | .NetBSD => 0x02
  | .Linux => 0x03
  | .GNUHurd => 0x04
  | .Solaris => 0x06
  | .AIX => 0x07
  | .IRIX => 0x08
  | .FreeBSD => 0x09
  | .Tru64 => 0x0A
  | .Novell => 0x0B
  | .OpenBSD => 0x0C
  | .OpenVMS => 0x0D
  | .NonStop => 0x0E
  | .Aros => 0x0F
  | .Fenix => 0x10
  | .CloudABI => 0x11
  | .OpenVOS => 0x12

/-- EiOsAbiParser - one_of over the 18 known OS/ABI bytes; any other byte
is a NoMatch (there is no Unknown variant in the source). -/
def parseEiOsAbi : Parser EiOsAbi :=
  pOneOf [
    pMap (expectByte (osAbiToU8 .SysV)) (fun _ => EiOsAbi.SysV),
    pMap (expectByte (osAbiToU8 .HPUX)) (fun _ => EiOsAbi.HPUX),
    pMap (expectByte (osAbiToU8 .NetBSD)) (fun _ => EiOsAbi.NetBSD),
    pMap (expectByte (osAbiToU8 .Linux)) (fun _ => EiOsAbi.Linux),
    pMap (expectByte (osAbiToU8 .GNUHurd)) (fun _ => EiOsAbi.GNUHurd),
    pMap (expectByte (osAbiToU8 .Solaris)) (fun _ => EiOsAbi.Solaris),
    pMap (expectByte (osAbiToU8 .AIX)) (fun _ => EiOsAbi.AIX),
    pMap (expectByte (osAbiToU8 .IRIX)) (fun _ => EiOsAbi.IRIX),
    pMap (expectByte (osAbiToU8 .FreeBSD)) (fun _ => EiOsAbi.FreeBSD),
    pMap (expectByte (osAbiToU8 .Tru64)) (fun _ => EiOsAbi.Tru64),
    pMap (expectByte (osAbiToU8 .Novell)) (fun _ => EiOsAbi.Novell),
    pMap (expectByte (osAbiToU8 .OpenBSD)) (fun _ => EiOsAbi.OpenBSD),
    pMap (expectByte (osAbiToU8 .OpenVMS)) (fun _ => EiOsAbi.OpenVMS),
    pMap (expectByte (osAbiToU8 .NonStop)) (fun _ => EiOsAbi.NonStop),
    pMap (expectByte (osAbiToU8 .Aros)) (fun _ => EiOsAbi.Aros),
    pMap (expectByte (osAbiToU8 .Fenix)) (fun _ => EiOsAbi.Fenix),
    pMap (expectByte (osAbiToU8 .CloudABI)) (fun _ => EiOsAbi.CloudABI),
    pMap (expectByte (osAbiToU8 .OpenVOS)) (fun _ => EiOsAbi.OpenVOS)]

/-- EiAbiVersion - 0x00 or 0x01. -/
inductive EiAbiVersion where
  | Zero
  | One
deriving DecidableEq

/-- EiAbiVersionParser - one_of over the two bytes. -/
def parseEiAbiVersion : Parser EiAbiVersion :=
  pOneOf [
    pMap (expectByte 0x00) (fun _ => EiAbiVersion.Zero),
    pMap (expectByte 0x01) (fun _ => EiAbiVersion.One)]

/-- EiIdent - the decoded identification block. -/
structure EiIdent where
  ei_class : EiClass
  ei_data : EiData
  ei_version : EiVersion
  ei_osabi : EiOsAbi
  ei_abiversion : EiAbiVersion
deriving DecidableEq

/-- EiIdentParser - magic, class, data, version, osabi, abiversion, then
7 unconditionally skipped padding bytes. -/
def parseEiIdent : Parser EiIdent :=
  pMap
    (pRight (pJoin (expectBytes [0x7f, 0x45, 0x4c, 0x46])
      (pAndThen
        (pJoin parseEiClass
          (pJoin parseEiData
            (pJoin parseEiVersion (pJoin parseEiOsAbi parseEiAbiVersion))))
        (fun last => pMap (pTakeN anyByte 7) (fun _ => last)))))
    (fun (c, (d, (v, (o, a)))) => EiIdent.mk c d v o a)

/-- FileType models the source enum `Type` (file type, closed enum). -/
inductive FileType where
  | None | Rel | Exec | Dyn | Core | LoOs | HiOs | LoProc | HiProc
deriving DecidableEq

/-- Discriminant of each FileType variant. -/
def fileTypeToU16 : FileType → Nat
  | .None => 0x00
  | .Rel => 0x01
  | .Exec => 0x02
  | .Dyn => 0x03
  | .Core => 0x04
  | .LoOs => 0xFE00
  | .HiOs => 0xFEFF
  | .LoProc => 0xFF00
  | .HiProc => 0xFFFF

/-- TypeParser::parse_type - one_of over the nine known type codes. -/
def parseFileType (e : EiData) : Parser FileType :=
  pOneOf [
    pMap (expectU16 e (fileTypeToU16 .None)) (fun _ => FileType.None),
    pMap (expectU16 e (fileTypeToU16 .Rel)) (fun _ => FileType.Rel),
    pMap (expectU16 e (fileTypeToU16 .Exec)) (fun _ => FileType.Exec),
    pMap (expectU16 e (fileTypeToU16 .Dyn)) (fun _ => FileType.Dyn),
    pMap (expectU16 e (fileTypeToU16 .Core)) (fun _ => FileType.Core),
    pMap (expectU16 e (fileTypeToU16 .LoOs)) (fun _ => FileType.LoOs),
    pMap (expectU16 e (fileTypeToU16 .HiOs)) (fun _ => FileType.HiOs),
    pMap (expectU16 e (fileTypeToU16 .LoProc)) (fun _ => FileType.LoProc),
    pMap (expectU16 e (fileTypeToU16 .HiProc)) (fun _ => FileType.HiProc)]

/-- Machine - the 49 machine codes known to the source enum. -/
inductive Machine where
  | None | M32 | SPARC | X386 | M68k | M88k | IntelMCU | Intel80860
  | MIPS | S370 | MIPSRS3LE | PARISC | I960 | PPC | PPC64 | S390
  | V800 | FR20 | RH32 | RCE | ARM | Alpha | SH | SPARCV9 | Tricore
  | ARC | H8300 | H8_300H | H8s | H8500 | IA64 | MIPSX | Coldfire
  | M68HC12 | MMA | PCP | NCPU | NDR1 | Starcore | ME16 | ST100
  | TinyJ | X86_64 | S320C600 | AARCH64 | RISCV | BPF | MCS6502
  | WDC65C817
deriving DecidableEq

/-- Enum discriminants of Machine (From<Machine> for u16). -/
def machineToU16 : Machine → Nat
  | .None => 0x00
  | .M32 => 0x01
  | .SPARC => 0x02
  | .X386 => 0x03
  | .M68k => 0x04
  | .M88k => 0x05
  | .IntelMCU => 0x06
  | .Intel80860 => 0x07
  | .MIPS => 0x08
  | .S370 => 0x09
  | .MIPSRS3LE => 0x0A
  | .PARISC => 0x0E
  | .I960 => 0x13
  | .PPC => 0x14
  | .PPC64 => 0x15
  | .S390 => 0x16
  | .V800 => 0x24
  | .FR20 => 0x25
  | .RH32 => 0x26
  | .RCE => 0x27
  | .ARM => 0x28
  | .Alpha => 0x29
  | .SH => 0x2A
  | .SPARCV9 => 0x2B
  | .Tricore => 0x2C
  | .ARC => 0x2D
  | .H8300 => 0x2E
  | .H8_300H => 0x2F
  | .H8s => 0x30
  | .H8500 => 0x31
  | .IA64 => 0x32
  | .MIPSX => 0x33
  | .Coldfire => 0x34
  | .M68HC12 => 0x35
  | .MMA => 0x36
  | .PCP => 0x37
  | .NCPU => 0x38
  | .NDR1 => 0x39
  | .Starcore => 0x3A
  | .ME16 => 0x3B
  | .ST100 => 0x3C
  | .TinyJ => 0x3D
  | .X86_64 => 0x3E
  | .S320C600 => 0x8C
  | .AARCH64 => 0xB7
  | .RISCV => 0xF3
  | .BPF => 0xF7
  | .MCS6502 => 0xFE
  | .WDC65C817 => 0x101

/-- TryFrom<u16> for Machine, transcribed exactly: note that 0xB9, 0xFA
and 0xFB map to AARCH64, RISCV and BPF although those variants carry the
discriminants 0xB7, 0xF3 and 0xF7, which themselves map to Err. -/
def machineTryFrom (value : Nat) : Option Machine :=
  match value with
  | 0x00 => some .None
  | 0x01 => some .M32
  | 0x02 => some .SPARC
  | 0x03 => some .X386
  | 0x04 => some .M68k
  | 0x05 => some .M88k
  | 0x06 => some .IntelMCU
  | 0x07 => some .Intel80860
  | 0x08 => some .MIPS
  | 0x09 => some .S370
  | 0x0A => some .MIPSRS3LE
  | 0x0E => some .PARISC
  | 0x13 => some .I960
  | 0x14 => some .PPC
  | 0x15 => some .PPC64
  | 0x16 => some .S390
  | 0x24 => some .V800
  | 0x25 => some .FR20
  | 0x26 => some .RH32
  | 0x27 => some .RCE
  | 0x28 => some .ARM
  | 0x29 => some .Alpha
  | 0x2A => some .SH
  | 0x2B => some .SPARCV9
  | 0x2C => some .Tricore
  | 0x2D => some .ARC
  | 0x2E => some .H8300
  | 0x2F => some .H8_300H
  | 0x30 => some .H8s
  | 0x31 => some .H8500
  | 0x32 => some .IA64
  | 0x33 => some .MIPSX
  | 0x34 => some .Coldfire
  | 0x35 => some .M68HC12
  | 0x36 => some .MMA
  | 0x37 => some .PCP
  | 0x38 => some .NCPU
  | 0x39 => some .NDR1
  | 0x3A => some .Starcore
  | 0x3B => some .ME16
  | 0x3C => some .ST100
  | 0x3D => some .TinyJ
  | 0x3E => some .X86_64
  | 0x8C => some .S320C600
  | 0xB9 => some .AARCH64
  | 0xFA => some .RISCV
  | 0xFB => some .BPF
  | 0xFE => some .MCS6502
  | 0x101 => some .WDC65C817
  | _ => none

/-- MachineParser::parse - collects two bytes (unwrap panics, modelled as
none, when fewer than two remain), converts via TryFrom, and returns
NoMatch of the original input on an unrecognized code. -/
def parseMachine (e : EiData) : Parser Machine := fun input =>
  match input with
  | b0 :: b1 :: rest =>
    match machineTryFrom (eVal e [b0, b1]) with
    | some m => some (.ok rest m)
    | none => some (.noMatch (b0 :: b1 :: rest))
  | _ => none

/-- Version - the 4-byte file-header version field, always 1. -/
inductive Version where
  | One
deriving DecidableEq

/-- Discriminant of Version. -/
def versionToU32 : Version → Nat
  | .One => 0x01

/-- VersionParser - expect_u32 of 1. -/
def parseVersion (e : EiData) : Parser Version :=
  pMap (expectU32 e 0x01) (fun _ => Version.One)

/-- FileHeader - the fixed file-header record. The address-width parameter
A of the source (u32 or u64) is modelled as Nat; the width only affects
the parsers and serializers. Field r#type is named ftype. -/
structure FileHeader where
  ftype : FileType
  machine : Machine
  version : Version
  entry_point : Nat
  ph_offset : Nat
  sh_offset : Nat
  flags : Nat
  eh_size : Nat
  phent_size : Nat
  phnum : Nat
  shent_size : Nat
  shnum : Nat
  shstrndx : Nat
deriving DecidableEq

/-- FileHeaderParser<Elf32Addr, E>::parse - parses `&input[16..]` (a Rust
panic, modelled as none, when the input holds fewer than 16 bytes):
type, machine, version, then entry/phoff/shoff/flags as u32 and six u16
fields. -/
def parseFileHeader32 (e : EiData) : Parser FileHeader := fun input =>
  if input.length < 16 then none
  else
    (pMap
      (pJoin (parseFileType e)
        (pJoin (parseMachine e)
          (pJoin (parseVersion e)
            (pJoin (matchU32 e)
              (pJoin (matchU32 e)
                (pJoin (matchU32 e)
                  (pJoin (matchU32 e) (pTakeN (matchU16 e) 6))))))))
      (fun (t, (m, (v, (ep, (po, (so, (fl, tb))))))) =>
        FileHeader.mk t m v ep po so fl
          (tb.getD 0 0) (tb.getD 1 0) (tb.getD 2 0)
          (tb.getD 3 0) (tb.getD 4 0) (tb.getD 5 0)))
      (input.drop 16)

/-- FileHeaderParser<Elf64Addr, E>::parse - same as the 32-bit layout with
entry/phoff/shoff widened to u64. -/
def parseFileHeader64 (e : EiData) : Parser FileHeader := fun input =>
  if input.length < 16 then none
  else
    (pMap
      (pJoin (parseFileType e)
        (pJoin (parseMachine e)
          (pJoin (parseVersion e)
            (pJoin (matchU64 e)
              (pJoin (matchU64 e)
                (pJoin (matchU64 e)
                  (pJoin (matchU32 e) (pTakeN (matchU16 e) 6))))))))
      (fun (t, (m, (v, (ep, (po, (so, (fl, tb))))))) =>
        FileHeader.mk t m v ep po so fl
          (tb.getD 0 0) (tb.getD 1 0) (tb.getD 2 0)
          (tb.getD 3 0) (tb.getD 4 0) (tb.getD 5 0)))
      (input.drop 16)

/-- Serialize<Elf32Addr, E> for FileHeader - concatenated field encodings
of the 36-byte region after the identification block. -/
def serializeFileHeader32 (e : EiData) (h : FileHeader) : List Nat :=
  u16Bytes e (fileTypeToU16 h.ftype) ++
  u16Bytes e (machineToU16 h.machine) ++
  u32Bytes e (versionToU32 h.version) ++
  u32Bytes e h.entry_point ++
  u32Bytes e h.ph_offset ++
  u32Bytes e h.sh_offset ++
  u32Bytes e h.flags ++
  u16Bytes e h.eh_size ++
  u16Bytes e h.phent_size ++
  u16Bytes e h.phnum ++
  u16Bytes e h.shent_size ++
  u16Bytes e h.shnum ++
  u16Bytes e h.shstrndx

/-- Serialize<Elf64Addr, E> for FileHeader - the 48-byte region with
entry/phoff/shoff widened to u64. -/
def serializeFileHeader64 (e : EiData) (h : FileHeader) : List Nat :=
  u16Bytes e (fileTypeToU16 h.ftype) ++
  u16Bytes e (machineToU16 h.machine) ++
  u32Bytes e (versionToU32 h.version) ++
  u64Bytes e h.entry_point ++
  u64Bytes e h.ph_offset ++
  u64Bytes e h.sh_offset ++
  u32Bytes e h.flags ++
  u16Bytes e h.eh_size ++
  u16Bytes e h.phent_size ++
  u16Bytes e h.phnum ++
  u16Bytes e h.shent_size ++
  u16Bytes e h.shnum ++
  u16Bytes e h.shstrndx

/-- ProgramHeaderType - the 15 program-header type codes known to the
source (closed: no Unknown variant). -/
inductive ProgramHeaderType where
  | Null | Load | Dynamic | Interp | Note | ShLib | PhDr | Tls
  | LoOs | HiOs | LoProc | HiProc | GnuEhFrame | GnuStack | GnuRelro
deriving DecidableEq, Fintype

/-- Discriminant of each ProgramHeaderType variant. -/
def phTypeToU32 : ProgramHeaderType → Nat
  | .Null => 0x00
  | .Load => 0x01
  | .Dynamic => 0x02
  | .Interp => 0x03
  | .Note => 0x04
  | .ShLib => 0x05
  | .PhDr => 0x06
  | .Tls => 0x07
  | .LoOs => 0x60000000
  | .HiOs => 0x6FFFFFFF
  | .LoProc => 0x70000000
  | .HiProc => 0x7FFFFFFF
  | .GnuEhFrame => 0x6474E550
  | .GnuStack => 0x6474E551
  | .GnuRelro => 0x6474E552

/-- ProgramHeaderTypeParser::parse_type - one_of over the 15 known codes;
any other code is a NoMatch. -/
def parseProgramHeaderType (e : EiData) : Parser ProgramHeaderType :=
  pOneOf [
    pMap (expectU32 e (phTypeToU32 .Null)) (fun _ => ProgramHeaderType.Null),
    pMap (expectU32 e (phTypeToU32 .Load)) (fun _ => ProgramHeaderType.Load),
    pMap (expectU32 e (phTypeToU32 .Dynamic)) (fun _ => ProgramHeaderType.Dynamic),
    pMap (expectU32 e (phTypeToU32 .Interp)) (fun _ => ProgramHeaderType.Interp),
    pMap (expectU32 e (phTypeToU32 .Note)) (fun _ => ProgramHeaderType.Note),
    pMap (expectU32 e (phTypeToU32 .ShLib)) (fun _ => ProgramHeaderType.ShLib),
    pMap (expectU32 e (phTypeToU32 .PhDr)) (fun _ => ProgramHeaderType.PhDr),
    pMap (expectU32 e (phTypeToU32 .Tls)) (fun _ => ProgramHeaderType.Tls),
    pMap (expectU32 e (phTypeToU32 .LoOs)) (fun _ => ProgramHeaderType.LoOs),
    pMap (expectU32 e (phTypeToU32 .HiOs)) (fun _ => ProgramHeaderType.HiOs),
    pMap (expectU32 e (phTypeToU32 .LoProc)) (fun _ => ProgramHeaderType.LoProc),
    pMap (expectU32 e (phTypeToU32 .HiProc)) (fun _ => ProgramHeaderType.HiProc),
    pMap (expectU32 e (phTypeToU32 .GnuEhFrame)) (fun _ => ProgramHeaderType.GnuEhFrame),
    pMap (expectU32 e (phTypeToU32 .GnuStack)) (fun _ => ProgramHeaderType.GnuStack),
    pMap (expectU32 e (phTypeToU32 .GnuRelro)) (fun _ => ProgramHeaderType.GnuRelro)]

/-- ProgramHeader32Bit - 32-bit program header entry (field r#type is
named ptype). -/
structure ProgramHeader32Bit where
  ptype : ProgramHeaderType
  offset : Nat
  vaddr : Nat
  paddr : Nat
  filesz : Nat
  memsz : Nat
  flags : Nat
  align : Nat
deriving DecidableEq

/-- ProgramHeaderParser<Elf32Addr, E>::parse - type then seven u32 fields. -/
def parseProgramHeader32 (e : EiData) : Parser ProgramHeader32Bit :=
  pMap (pJoin (parseProgramHeaderType e) (pTakeN (matchU32 e) 7))
    (fun (t, fb) =>
      ProgramHeader32Bit.mk t (fb.getD 0 0) (fb.getD 1 0) (fb.getD 2 0)
        (fb.getD 3 0) (fb.getD 4 0) (fb.getD 5 0) (fb.getD 6 0))

/-- ProgramHeader64Bit - 64-bit program header entry; flags immediately
follows type in the on-disk layout. -/
structure ProgramHeader64Bit where
  ptype : ProgramHeaderType
  flags : Nat
  offset : Nat
  vaddr : Nat
  paddr : Nat
  filesz : Nat
  memsz : Nat
  align : Nat
deriving DecidableEq

/-- ProgramHeaderParser<Elf64Addr, E>::parse - type, u32 flags, then six
u64 fields. -/
def parseProgramHeader64 (e : EiData) : Parser ProgramHeader64Bit :=
  pMap (pJoin (parseProgramHeaderType e)
      (pJoin (matchU32 e) (pTakeN (matchU64 e) 6)))
    (fun (t, (fl, eb)) =>
      ProgramHeader64Bit.mk t fl (eb.getD 0 0) (eb.getD 1 0) (eb.getD 2 0)
        (eb.getD 3 0) (eb.getD 4 0) (eb.getD 5 0))

/-- ShType - the 18 section-type codes known to the source. -/
inductive ShType where
  | Null | ProgBits | SymTab | StrTab | Rela | Hash | Dynamic | Note
  | NoBits | Rel | ShLib | DynSym | InitArray | FiniArray | PreInitArray
  | Group | SymTabShndx | Num
deriving DecidableEq

/-- Discriminant of each ShType variant. -/
def shTypeToU32 : ShType → Nat
  | .Null => 0x00
  | .ProgBits => 0x01
  | .SymTab => 0x02
  | .StrTab => 0x03
  | .Rela => 0x04
  | .Hash => 0x05
  | .Dynamic => 0x06
  | .Note => 0x07
  | .NoBits => 0x08
  | .Rel => 0x09
  | .ShLib => 0x0a
  | .DynSym => 0x0b
  | .InitArray => 0x0e
  | .FiniArray => 0x0f
  | .PreInitArray => 0x10
  | .Group => 0x11
  | .SymTabShndx => 0x12
  | .Num => 0x13

/-- ShTypeParser::parse - one_of over the 18 known codes, with an `.or`
fallback that consumes any u32 and yields Null. -/
def parseShType (e : EiData) : Parser ShType :=
  pOr
    (pOneOf [
      pMap (expectU32 e (shTypeToU32 .Null)) (fun _ => ShType.Null),
      pMap (expectU32 e (shTypeToU32 .ProgBits)) (fun _ => ShType.ProgBits),
      pMap (expectU32 e (shTypeToU32 .SymTab)) (fun _ => ShType.SymTab),
      pMap (expectU32 e (shTypeToU32 .StrTab)) (fun _ => ShType.StrTab),
      pMap (expectU32 e (shTypeToU32 .Rela)) (fun _ => ShType.Rela),
      pMap (expectU32 e (shTypeToU32 .Hash)) (fun _ => ShType.Hash),
      pMap (expectU32 e (shTypeToU32 .Dynamic)) (fun _ => ShType.Dynamic),
      pMap (expectU32 e (shTypeToU32 .Note)) (fun _ => ShType.Note),
      pMap (expectU32 e (shTypeToU32 .NoBits)) (fun _ => ShType.NoBits),
      pMap (expectU32 e (shTypeToU32 .Rel)) (fun _ => ShType.Rel),
      pMap (expectU32 e (shTypeToU32 .ShLib)) (fun _ => ShType.ShLib),
      pMap (expectU32 e (shTypeToU32 .DynSym)) (fun _ => ShType.DynSym),
      pMap (expectU32 e (shTypeToU32 .InitArray)) (fun _ => ShType.InitArray),
      pMap (expectU32 e (shTypeToU32 .FiniArray)) (fun _ => ShType.FiniArray),
      pMap (expectU32 e (shTypeToU32 .PreInitArray)) (fun _ => ShType.PreInitArray),
      pMap (expectU32 e (shTypeToU32 .Group)) (fun _ => ShType.Group),
      pMap (expectU32 e (shTypeToU32 .SymTabShndx)) (fun _ => ShType.SymTabShndx),
      pMap (expectU32 e (shTypeToU32 .Num)) (fun _ => ShType.Num)])
    (pMap (matchU32 e) (fun _ => ShType.Null))

/-- ShFlags32Bit - the source models 32-bit section flags as a two-variant
enum: Write (0x01) and a catch-all Other (0x9999). -/
inductive ShFlags32Bit where
  | Write
  | Other
deriving DecidableEq

/-- ShFlagsParser<Elf32Addr, E>::parse - expect_u32 of 1 yields Write; the
`.or` fallback consumes any u32 and yields Other. -/
def parseShFlags32 (e : EiData) : Parser ShFlags32Bit :=
  pOr
    (pOneOf [pMap (expectU32 e 0x01) (fun _ => ShFlags32Bit.Write)])
    (pMap (matchU32 e) (fun _ => ShFlags32Bit.Other))

/-- ShFlags64Bit - the 64-bit analogue of ShFlags32Bit. -/
inductive ShFlags64Bit where
  | Write
  | Other
deriving DecidableEq

/-- ShFlagsParser<Elf64Addr, E>::parse - expect_u64 of 1 yields Write; the
`.or` fallback consumes any u64 and yields Other. -/
def parseShFlags64 (e : EiData) : Parser ShFlags64Bit :=
  pOr
    (pOneOf [pMap (expectU64 e 0x01) (fun _ => ShFlags64Bit.Write)])
    (pMap (matchU64 e) (fun _ => ShFlags64Bit.Other))

/-- SectionHeader32Bit - 32-bit section header entry. -/
structure SectionHeader32Bit where
  sh_name : Nat
  sh_type : ShType
  sh_flags : ShFlags32Bit
  sh_addr : Nat
  sh_offset : Nat
  sh_size : Nat
  sh_link : Nat
  sh_info : Nat
  sh_addr_align : Nat
  sh_entsize : Nat
deriving DecidableEq

/-- SectionHeaderParser<Elf32Addr, E>::parse - name, type, flags, then
seven u32 fields. -/
def parseSectionHeader32 (e : EiData) : Parser SectionHeader32Bit :=
  pMap
    (pJoin (matchU32 e)
      (pJoin (parseShType e)
        (pJoin (parseShFlags32 e) (pTakeN (matchU32 e) 7))))
    (fun (n, (t, (f, u32s))) =>
      SectionHeader32Bit.mk n t f (u32s.getD 0 0) (u32s.getD 1 0)
        (u32s.getD 2 0) (u32s.getD 3 0) (u32s.getD 4 0) (u32s.getD 5 0)
        (u32s.getD 6 0))

/-- SectionHeader64Bit - 64-bit section header entry. -/
structure SectionHeader64Bit where
  sh_name : Nat
  sh_type : ShType
  sh_flags : ShFlags64Bit
  sh_addr : Nat
  sh_offset : Nat
  sh_size : Nat
  sh_link : Nat
  sh_info : Nat
  sh_addr_align : Nat
  sh_entsize : Nat
deriving DecidableEq

/-- SectionHeaderParser<Elf64Addr, E>::parse - name, type, flags, three
u64 fields, two u32 fields, two u64 fields. -/
def parseSectionHeader64 (e : EiData) : Parser SectionHeader64Bit :=
  pMap
    (pJoin (matchU32 e)
      (pJoin (parseShType e)
        (pJoin (parseShFlags64 e)
          (pJoin (pTakeN (matchU64 e) 3)
            (pJoin (pTakeN (matchU32 e) 2) (pTakeN (matchU64 e) 2))))))
    (fun (n, (t, (f, (u64one, (u32one, u64two))))) =>
      SectionHeader64Bit.mk n t f (u64one.getD 0 0) (u64one.getD 1 0)
        (u64one.getD 2 0) (u32one.getD 0 0) (u32one.getD 1 0)
        (u64two.getD 0 0) (u64two.getD 1 0))

/-- ElfHeader32Bit - identification, file header and both tables. -/
structure ElfHeader32Bit where
  ei_ident : EiIdent
  file_header : FileHeader
  program_headers : List ProgramHeader32Bit
  section_headers : List SectionHeader32Bit
deriving DecidableEq

/-- ElfHeader64Bit - identification, file header and both tables. -/
structure ElfHeader64Bit where
  ei_ident : EiIdent
  file_header : FileHeader
  program_headers : List ProgramHeader64Bit
  section_headers : List SectionHeader64Bit
deriving DecidableEq

/-- ElfHeaderParser<Elf32Addr, E>::parse - parses the identification, then
re-parses the file header from the start of the original input (the file
header parser itself skips 16 bytes), then take_n(phnum) program headers
and take_n(shnum) section headers immediately after the file header. -/
def parseElfHeader32 (e : EiData) : Parser ElfHeader32Bit := fun input =>
  match parseEiIdent input with
  | none => none
  | some (.noMatch rem) => some (.noMatch rem)
  | some (.ok _ ei) =>
    (pMap
      (pAndThen
        (pAndThen (parseFileHeader32 e)
          (fun fh =>
            pMap (pTakeN (parseProgramHeader32 e) fh.phnum)
              (fun phs => (fh, phs))))
        (fun fhphs =>
          pMap (pTakeN (parseSectionHeader32 e) fhphs.1.shnum)
            (fun shs => (fhphs.1, fhphs.2, shs))))
      (fun trip => ElfHeader32Bit.mk ei trip.1 trip.2.1 trip.2.2)) input

/-- ElfHeaderParser<Elf64Addr, E>::parse - the 64-bit analogue. -/
def parseElfHeader64 (e : EiData) : Parser ElfHeader64Bit := fun input =>
  match parseEiIdent input with
  | none => none
  | some (.noMatch rem) => some (.noMatch rem)
  | some (.ok _ ei) =>
    (pMap
      (pAndThen
        (pAndThen (parseFileHeader64 e)
          (fun fh =>
            pMap (pTakeN (parseProgramHeader64 e) fh.phnum)
              (fun phs => (fh, phs))))
        (fun fhphs =>
          pMap (pTakeN (parseSectionHeader64 e) fhphs.1.shnum)
            (fun shs => (fhphs.1, fhphs.2, shs))))
      (fun trip => ElfHeader64Bit.mk ei trip.1 trip.2.1 trip.2.2)) input

/-! Concrete data used by counterexamples and witnesses. `identTestBytes`
and the file-header bytes are the known-good vector from the repository
test `parse_known_good_file_header`. -/

/-- Identification block of the known-good test vector. -/
def identTestBytes : List Nat :=
  [0x7f, 0x45, 0x4c, 0x46, 0x01, 0x01, 0x01, 0x00,
   0x01, 0x00, 0x00, 0x00, 0x00, 0x00, 0x00, 0x00]

/-- File-header region of the known-good test vector: ph_offset = 10,
sh_offset = 11, phnum = shnum = 1. -/
def fhTestBytes : List Nat :=
  [0x00, 0x00, 0x03, 0x00, 0x01, 0x00, 0x00, 0x00,
   0x05, 0x00, 0x00, 0x00, 0x0A, 0x00, 0x00, 0x00,
   0x0B, 0x00, 0x00, 0x00, 0x02, 0x00, 0x00, 0x00,
   0x00, 0x00, 0x01, 0x00, 0x01, 0x00, 0x01, 0x00,
   0x01, 0x00, 0x01, 0x00]

/-- The decoded known-good file header. -/
def hTest : FileHeader :=
  FileHeader.mk .None .X386 .One 5 10 11 2 0 1 1 1 1 1

/-- The known-good file header with machine AARCH64 instead of X386. -/
def hAarch : FileHeader :=
  FileHeader.mk .None .AARCH64 .One 5 10 11 2 0 1 1 1 1 1

/-- A 32-byte little-endian program-header entry with distinctive values,
placed immediately after the file header (byte offset 52). -/
def phC5Bytes : List Nat :=
  [0x01, 0x00, 0x00, 0x00, 0xEF, 0xBE, 0x00, 0x00,
   0x0D, 0xD0, 0x00, 0x00, 0x22, 0x00, 0x00, 0x00,
   0x33, 0x00, 0x00, 0x00, 0x44, 0x00, 0x00, 0x00,
   0x05, 0x00, 0x00, 0x00, 0x04, 0x00, 0x00, 0x00]

/-- A 40-byte little-endian section-header entry with distinctive values,
placed immediately after the program header (byte offset 84). -/
def shC5Bytes : List Nat :=
  [0x2A, 0x00, 0x00, 0x00, 0x03, 0x00, 0x00, 0x00,
   0x01, 0x00, 0x00, 0x00, 0x61, 0x00, 0x00, 0x00,
   0x62, 0x00, 0x00, 0x00, 0x63, 0x00, 0x00, 0x00,
   0x64, 0x00, 0x00, 0x00, 0x65, 0x00, 0x00, 0x00,
   0x66, 0x00, 0x00, 0x00, 0x67, 0x00, 0x00, 0x00]

/-- A complete 124-byte ELF buffer: identification, file header declaring
ph_offset = 10 and sh_offset = 11, then one program header at byte 52 and
one section header at byte 84. -/
def elfBufC5 : List Nat := identTestBytes ++ fhTestBytes ++ phC5Bytes ++ shC5Bytes

/-- The program-header entry encoded at byte offset 52 of elfBufC5. -/
def phC5 : ProgramHeader32Bit :=
  ProgramHeader32Bit.mk .Load 0xBEEF 0xD00D 0x22 0x33 0x44 5 4

/-- The section-header entry encoded at byte offset 84 of elfBufC5. -/
def shC5 : SectionHeader32Bit :=
  SectionHeader32Bit.mk 42 .StrTab .Write 0x61 0x62 0x63 0x64 0x65 0x66 0x67

/-- The full decode result of elfBufC5. -/
def elfC5 : ElfHeader32Bit :=
  ElfHeader32Bit.mk (EiIdent.mk .ThirtyTwoBit .Little .One .SysV .One)
    hTest [phC5] [shC5]

/-- DecodesSeq p input vs rest states that vs is the sequence of values
obtained by running p repeatedly from input, left to right, ending with
rest unconsumed: the i-th entry of vs is decoded from the i-th
consecutive table slot of the byte stream, so a list related to its
slice by DecodesSeq is in on-disk order. -/
inductive DecodesSeq {α : Type} (p : Parser α) :
    List Nat → List α → List Nat → Prop where
  | nil (input : List Nat) : DecodesSeq p input [] input
  | cons {input rest r : List Nat} {v : α} {vs : List α} :
      p input = some (.ok rest v) → DecodesSeq p rest vs r →
      DecodesSeq p input (v :: vs) r

/-! Helper lemmas about the byte-level parsers. -/

/-- matchU16 on at least two bytes consumes exactly two. -/
theorem matchU16_cons (e : EiData) (b0 b1 : Nat) (rest : List Nat) :
    matchU16 e (b0 :: b1 :: rest) = some (.ok rest (eVal e [b0, b1])) := by
  cases e <;> rfl

/-- matchU32 on at least four bytes consumes exactly four. -/
theorem matchU32_cons (e : EiData) (b0 b1 b2 b3 : Nat) (rest : List Nat) :
    matchU32 e (b0 :: b1 :: b2 :: b3 :: rest)
      = some (.ok rest (eVal e [b0, b1, b2, b3])) := by
  cases e <;> rfl

/-- matchU64 on at least eight bytes consumes exactly eight. -/
theorem matchU64_cons (e : EiData) (b0 b1 b2 b3 b4 b5 b6 b7 : Nat)
    (rest : List Nat) :
    matchU64 e (b0 :: b1 :: b2 :: b3 :: b4 :: b5 :: b6 :: b7 :: rest)
      = some (.ok rest (eVal e [b0, b1, b2, b3, b4, b5, b6, b7])) := by
  cases e <;> rfl

/-- Decoding the encoding of a u16 value recovers the value. -/
theorem eVal_u16Bytes (e : EiData) (v : Nat) (h : v < 65536) :
    eVal e (u16Bytes e v) = v := by
  cases e <;> simp [eVal, u16Bytes, bytesToNatLE] <;> omega

/-- Decoding the encoding of a u32 value recovers the value. -/
theorem eVal_u32Bytes (e : EiData) (v : Nat) (h : v < 4294967296) :
    eVal e (u32Bytes e v) = v := by
  cases e <;> simp [eVal, u32Bytes, bytesToNatLE] <;> omega

/-- Decoding the encoding of a u64 value recovers the value. -/
theorem eVal_u64Bytes (e : EiData) (v : Nat) (h : v < 18446744073709551616) :
    eVal e (u64Bytes e v) = v := by
  cases e <;> simp [eVal, u64Bytes, bytesToNatLE] <;> omega

/-- matchU16 run on an encoded u16 followed by anything matches the value
and leaves exactly the tail. -/
theorem matchU16_encode (e : EiData) (v : Nat) (rest : List Nat)
    (h : v < 65536) :
    matchU16 e (u16Bytes e v ++ rest) = some (.ok rest v) := by
  cases e
  · simp only [u16Bytes, List.cons_append, List.nil_append, matchU16_cons]
    rw [show eVal EiData.Little [v % 256, v / 256 % 256] = v from by
      simp [eVal, bytesToNatLE]; omega]
  · simp only [u16Bytes, List.cons_append, List.nil_append, matchU16_cons]
    rw [show eVal EiData.Big [v / 256 % 256, v % 256] = v from by
      simp [eVal, bytesToNatLE]; omega]

/-- matchU32 run on an encoded u32 followed by anything matches the value
and leaves exactly the tail. -/
theorem matchU32_encode (e : EiData) (v : Nat) (rest : List Nat)
    (h : v < 4294967296) :
    matchU32 e (u32Bytes e v ++ rest) = some (.ok rest v) := by
  cases e
  · simp only [u32Bytes, List.cons_append, List.nil_append, matchU32_cons]
    rw [show eVal EiData.Little
        [v % 256, v / 256 % 256, v / 65536 % 256, v / 16777216 % 256] = v from by
      simp [eVal, bytesToNatLE]; omega]
  · simp only [u32Bytes, List.cons_append, List.nil_append, matchU32_cons]
    rw [show eVal EiData.Big
        [v / 16777216 % 256, v / 65536 % 256, v / 256 % 256, v % 256] = v from by
      simp [eVal, bytesToNatLE]; omega]

/-- matchU64 run on an encoded u64 followed by anything matches the value
and leaves exactly the tail. -/
theorem matchU64_encode (e : EiData) (v : Nat) (rest : List Nat)
    (h : v < 18446744073709551616) :
    matchU64 e (u64Bytes e v ++ rest) = some (.ok rest v) := by
  cases e
  · simp only [u64Bytes, List.cons_append, List.nil_append, matchU64_cons]
    rw [show eVal EiData.Little
        [v % 256, v / 256 % 256, v / 65536 % 256, v / 16777216 % 256,
         v / 4294967296 % 256, v / 1099511627776 % 256,
         v / 281474976710656 % 256, v / 72057594037927936 % 256] = v from by
      simp [eVal, bytesToNatLE]; omega]
  · simp only [u64Bytes, List.cons_append, List.nil_append, matchU64_cons]
    rw [show eVal EiData.Big
        [v / 72057594037927936 % 256, v / 281474976710656 % 256,
         v / 1099511627776 % 256, v / 4294967296 % 256,
         v / 16777216 % 256, v / 65536 % 256, v / 256 % 256, v % 256] = v from by
      simp [eVal, bytesToNatLE]; omega]

/-- expectU16 succeeds on the encoding of its expected value. -/
theorem expectU16_encode_eq (e : EiData) (v : Nat) (rest : List Nat)
    (h : v < 65536) :
    expectU16 e v (u16Bytes e v ++ rest) = some (.ok rest v) := by
  simp [expectU16, matchU16_encode e v rest h]

/-- expectU16 returns the original input when the encoded value differs
from the expected one. -/
theorem expectU16_encode_ne (e : EiData) (x v : Nat) (rest : List Nat)
    (h : v < 65536) (hne : v ≠ x) :
    expectU16 e x (u16Bytes e v ++ rest) = some (.noMatch (u16Bytes e v ++ rest)) := by
  simp [expectU16, matchU16_encode e v rest h, hne]

/-- expectU32 succeeds on the encoding of its expected value. -/
theorem expectU32_encode_eq (e : EiData) (v : Nat) (rest : List Nat)
    (h : v < 4294967296) :
    expectU32 e v (u32Bytes e v ++ rest) = some (.ok rest v) := by
  simp [expectU32, matchU32_encode e v rest h]

/-- expectU32 returns the original input when the encoded value differs
from the expected one. -/
theorem expectU32_encode_ne (e : EiData) (x v : Nat) (rest : List Nat)
    (h : v < 4294967296) (hne : v ≠ x) :
    expectU32 e x (u32Bytes e v ++ rest) = some (.noMatch (u32Bytes e v ++ rest)) := by
  simp [expectU32, matchU32_encode e v rest h, hne]

/-- Joining two parsers that both match produces the pair. -/
theorem pJoin_ok2 {α β : Type} {p : Parser α} {q : Parser β}
    {input r : List Nat} {v : α} {r2 : List Nat} {w : β}
    (h1 : p input = some (.ok r v)) (h2 : q r = some (.ok r2 w)) :
    pJoin p q input = some (.ok r2 (v, w)) := by
  simp [pJoin, h1, h2]

/-- Mapping over a matching parser maps the value. -/
theorem pMap_ok {α β : Type} {p : Parser α} {f : α → β}
    {input r : List Nat} {v : α}
    (h : p input = some (.ok r v)) :
    pMap p f input = some (.ok r (f v)) := by
  simp [pMap, h]

/-- A matching parser in first position makes pOr match. -/
theorem pOr_ok {α : Type} {p q : Parser α} {input r : List Nat} {v : α}
    (h : p input = some (.ok r v)) :
    pOr p q input = some (.ok r v) := by
  simp [pOr, h]

/-- A failing parser in first position defers pOr to the alternative. -/
theorem pOr_noMatch {α : Type} {p q : Parser α} {input r : List Nat}
    (h : p input = some (.noMatch r)) :
    pOr p q input = q input := by
  simp [pOr, h]

/-- pTakeN of matchU16 over a concatenation of encoded u16 values matches
them all, in order. -/
theorem pTakeN_matchU16_list (e : EiData) (vs : List Nat) (rest : List Nat)
    (h : ∀ v ∈ vs, v < 65536) :
    pTakeN (matchU16 e) vs.length ((vs.map (u16Bytes e)).flatten ++ rest)
      = some (.ok rest vs) := by
  induction vs with
  | nil => rfl
  | cons v vs ih =>
    have hv : v < 65536 := h v (by simp)
    have hrest := ih (fun w hw => h w (by simp [hw]))
    simp only [List.map_cons, List.flatten_cons, List.length_cons,
      List.append_assoc, pTakeN]
    rw [matchU16_encode e v _ hv]
    simp only [hrest]

/-- The file-type parser matches the encoding of every FileType variant. -/
theorem parseFileType_encode (e : EiData) (t : FileType) (rest : List Nat) :
    parseFileType e (u16Bytes e (fileTypeToU16 t) ++ rest)
      = some (.ok rest t) := by
  cases t <;> cases e <;> rfl

/-- The machine parser matches the encoding of every Machine variant whose
discriminant survives the TryFrom table. -/
theorem parseMachine_encode (e : EiData) (m : Machine) (rest : List Nat)
    (h : machineTryFrom (machineToU16 m) = some m) :
    parseMachine e (u16Bytes e (machineToU16 m) ++ rest)
      = some (.ok rest m) := by
  have hlt : machineToU16 m < 65536 := by cases m <;> decide
  cases e
  · simp only [u16Bytes, List.cons_append, List.nil_append, parseMachine]
    rw [show eVal EiData.Little [machineToU16 m % 256, machineToU16 m / 256 % 256]
        = machineToU16 m from by simp [eVal, bytesToNatLE]; omega]
    rw [h]
  · simp only [u16Bytes, List.cons_append, List.nil_append, parseMachine]
    rw [show eVal EiData.Big [machineToU16 m / 256 % 256, machineToU16 m % 256]
        = machineToU16 m from by simp [eVal, bytesToNatLE]; omega]
    rw [h]

/-- The version parser matches the encoding of version 1. -/
theorem parseVersion_encode (e : EiData) (rest : List Nat) :
    parseVersion e (u32Bytes e 1 ++ rest) = some (.ok rest Version.One) := by
  cases e <;> rfl

/-- Serializing then re-parsing a 32-bit file header yields the header
back, provided the serialized bytes are preceded by 16 bytes (the parser
unconditionally skips 16 bytes) and the machine discriminant survives the
TryFrom table. -/
theorem fileHeader_roundtrip32 (e : EiData) (h : FileHeader) (p : List Nat)
    (hp : p.length = 16)
    (hmach : machineTryFrom (machineToU16 h.machine) = some h.machine)
    (hep : h.entry_point < 4294967296) (hpo : h.ph_offset < 4294967296)
    (hso : h.sh_offset < 4294967296) (hfl : h.flags < 4294967296)
    (hes : h.eh_size < 65536) (hps : h.phent_size < 65536)
    (hpn : h.phnum < 65536) (hss : h.shent_size < 65536)
    (hsn : h.shnum < 65536) (hsx : h.shstrndx < 65536) :
    parseFileHeader32 e (p ++ serializeFileHeader32 e h)
      = some (.ok [] h) := by
  obtain ⟨t, m, ver, ep, po, so, fl, es, ps, pn, ss, sn, sx⟩ := h
  cases ver
  have h6 := pTakeN_matchU16_list e [es, ps, pn, ss, sn, sx] [] (by
    intro w hw
    simp only [List.mem_cons, List.not_mem_nil, or_false] at hw
    rcases hw with rfl | rfl | rfl | rfl | rfl | rfl <;> assumption)
  simp only [List.map_cons, List.map_nil, List.flatten_cons, List.flatten_nil,
    List.length_cons, List.length_nil, List.append_nil, List.append_assoc,
    Nat.zero_add, Nat.reduceAdd] at h6
  have hAll :=
    pJoin_ok2 (parseFileType_encode e t _)
      (pJoin_ok2 (parseMachine_encode e m _ hmach)
        (pJoin_ok2 (parseVersion_encode e _)
          (pJoin_ok2 (matchU32_encode e ep _ hep)
            (pJoin_ok2 (matchU32_encode e po _ hpo)
              (pJoin_ok2 (matchU32_encode e so _ hso)
                (pJoin_ok2 (matchU32_encode e fl _ hfl) h6))))))
  simp only [parseFileHeader32]
  rw [if_neg (by simp [List.length_append, hp])]
  rw [show (p ++ serializeFileHeader32 e (FileHeader.mk t m .One ep po so fl es ps pn ss sn sx)).drop 16
      = serializeFileHeader32 e (FileHeader.mk t m .One ep po so fl es ps pn ss sn sx) from by
    rw [← hp, List.drop_left]]
  simp only [serializeFileHeader32, versionToU32, List.append_assoc]
  exact (pMap_ok hAll).trans (by rfl)

/-- Serializing then re-parsing a 64-bit file header yields the header
back, under the same provisos as the 32-bit case. -/
theorem fileHeader_roundtrip64 (e : EiData) (h : FileHeader) (p : List Nat)
    (hp : p.length = 16)
    (hmach : machineTryFrom (machineToU16 h.machine) = some h.machine)
    (hep : h.entry_point < 18446744073709551616)
    (hpo : h.ph_offset < 18446744073709551616)
    (hso : h.sh_offset < 18446744073709551616)
    (hfl : h.flags < 4294967296)
    (hes : h.eh_size < 65536) (hps : h.phent_size < 65536)
    (hpn : h.phnum < 65536) (hss : h.shent_size < 65536)
    (hsn : h.shnum < 65536) (hsx : h.shstrndx < 65536) :
    parseFileHeader64 e (p ++ serializeFileHeader64 e h)
      = some (.ok [] h) := by
  obtain ⟨t, m, ver, ep, po, so, fl, es, ps, pn, ss, sn, sx⟩ := h
  cases ver
  have h6 := pTakeN_matchU16_list e [es, ps, pn, ss, sn, sx] [] (by
    intro w hw
    simp only [List.mem_cons, List.not_mem_nil, or_false] at hw
    rcases hw with rfl | rfl | rfl | rfl | rfl | rfl <;> assumption)
  simp only [List.map_cons, List.map_nil, List.flatten_cons, List.flatten_nil,
    List.length_cons, List.length_nil, List.append_nil, List.append_assoc,
    Nat.zero_add, Nat.reduceAdd] at h6
  have hAll :=
    pJoin_ok2 (parseFileType_encode e t _)
      (pJoin_ok2 (parseMachine_encode e m _ hmach)
        (pJoin_ok2 (parseVersion_encode e _)
          (pJoin_ok2 (matchU64_encode e ep _ hep)
            (pJoin_ok2 (matchU64_encode e po _ hpo)
              (pJoin_ok2 (matchU64_encode e so _ hso)
                (pJoin_ok2 (matchU32_encode e fl _ hfl) h6))))))
  simp only [parseFileHeader64]
  rw [if_neg (by simp [List.length_append, hp])]
  rw [show (p ++ serializeFileHeader64 e (FileHeader.mk t m .One ep po so fl es ps pn ss sn sx)).drop 16
      = serializeFileHeader64 e (FileHeader.mk t m .One ep po so fl es ps pn ss sn sx) from by
    rw [← hp, List.drop_left]]
  simp only [serializeFileHeader64, versionToU32, List.append_assoc]
  exact (pMap_ok hAll).trans (by rfl)

/-- Inversion for pMap: a match comes from a match of the inner parser. -/
theorem pMap_ok_inv {α β : Type} {p : Parser α} {f : α → β}
    {input r : List Nat} {w : β}
    (h : pMap p f input = some (.ok r w)) :
    ∃ v, p input = some (.ok r v) ∧ w = f v := by
  cases hp : p input with
  | none => simp [pMap, hp] at h
  | some ms =>
    cases ms with
    | noMatch a => simp [pMap, hp] at h
    | ok rr vv =>
      simp only [pMap, hp] at h
      simp only [Option.some.injEq, MatchStatus.ok.injEq] at h
      obtain ⟨h1, h2⟩ := h
      subst h1
      exact ⟨vv, rfl, h2.symm⟩

/-- Inversion for pAndThen: a match factors through a match of the first
parser and a match of the continuation. -/
theorem pAndThen_ok_inv {α β : Type} {p : Parser α} {f : α → Parser β}
    {input r : List Nat} {w : β}
    (h : pAndThen p f input = some (.ok r w)) :
    ∃ r1 v, p input = some (.ok r1 v) ∧ f v r1 = some (.ok r w) := by
  cases hp : p input with
  | none => simp [pAndThen, hp] at h
  | some ms =>
    cases ms with
    | noMatch a => simp [pAndThen, hp] at h
    | ok rr vv =>
      cases hf : f vv rr with
      | none => simp [pAndThen, hp, hf] at h
      | some ms2 =>
        cases ms2 with
        | noMatch a => simp [pAndThen, hp, hf] at h
        | ok r2 w2 =>
          simp only [pAndThen, hp, hf] at h
          simp only [Option.some.injEq, MatchStatus.ok.injEq] at h
          obtain ⟨h1, h2⟩ := h
          subst h1
          subst h2
          exact ⟨rr, vv, rfl, hf⟩

/-- A matching pTakeN yields exactly n values. -/
theorem pTakeN_ok_length {α : Type} {p : Parser α} {n : Nat}
    {input r : List Nat} {vs : List α}
    (h : pTakeN p n input = some (.ok r vs)) :
    vs.length = n := by
  induction n generalizing input r vs with
  | zero =>
    simp only [pTakeN, Option.some.injEq, MatchStatus.ok.injEq] at h
    rw [← h.2]
    rfl
  | succ n ih =>
    simp only [pTakeN] at h
    cases hp : p input with
    | none => rw [hp] at h; simp at h
    | some ms =>
      cases ms with
      | noMatch a => rw [hp] at h; simp at h
      | ok rr vv =>
        rw [hp] at h
        dsimp only at h
        cases ht : pTakeN p n rr with
        | none => rw [ht] at h; simp at h
        | some ms2 =>
          cases ms2 with
          | noMatch a => rw [ht] at h; simp at h
          | ok r2 ws =>
            rw [ht] at h
            dsimp only at h
            simp only [Option.some.injEq, MatchStatus.ok.injEq] at h
            rw [← h.2, List.length_cons, ih ht]

/-- A matching pTakeN decodes its values sequentially, in order, from the
input slice. -/
theorem pTakeN_ok_decodesSeq {α : Type} {p : Parser α} {n : Nat}
    {input r : List Nat} {vs : List α}
    (h : pTakeN p n input = some (.ok r vs)) :
    DecodesSeq p input vs r := by
  induction n generalizing input r vs with
  | zero =>
    simp only [pTakeN, Option.some.injEq, MatchStatus.ok.injEq] at h
    obtain ⟨h1, h2⟩ := h
    subst h1
    rw [← h2]
    exact .nil input
  | succ n ih =>
    simp only [pTakeN] at h
    cases hp : p input with
    | none => rw [hp] at h; simp at h
    | some ms =>
      cases ms with
      | noMatch a => rw [hp] at h; simp at h
      | ok rr vv =>
        rw [hp] at h
        dsimp only at h
        cases ht : pTakeN p n rr with
        | none => rw [ht] at h; simp at h
        | some ms2 =>
          cases ms2 with
          | noMatch a => rw [ht] at h; simp at h
          | ok r2 ws =>
            rw [ht] at h
            dsimp only at h
            simp only [Option.some.injEq, MatchStatus.ok.injEq] at h
            obtain ⟨h1, h2⟩ := h
            subst h1
            rw [← h2]
            exact .cons hp (ih ht)

/-- matchU16 either fails returning the original input or consumes exactly
two bytes. -/
theorem matchU16_shape (e : EiData) (input : List Nat) :
    matchU16 e input = some (.noMatch input)
    ∨ ∃ v, matchU16 e input = some (.ok (input.drop 2) v) := by
  match input with
  | [] => exact Or.inl (by cases e <;> rfl)
  | [_] => exact Or.inl (by cases e <;> rfl)
  | b0 :: b1 :: rest => exact Or.inr ⟨_, matchU16_cons e b0 b1 rest⟩

/-- matchU32 either fails returning the original input or consumes exactly
four bytes. -/
theorem matchU32_shape (e : EiData) (input : List Nat) :
    matchU32 e input = some (.noMatch input)
    ∨ ∃ v, matchU32 e input = some (.ok (input.drop 4) v) := by
  match input with
  | [] | [_] | [_, _] | [_, _, _] => exact Or.inl (by cases e <;> rfl)
  | b0 :: b1 :: b2 :: b3 :: rest =>
    exact Or.inr ⟨_, matchU32_cons e b0 b1 b2 b3 rest⟩

/-- matchU64 either fails returning the original input or consumes exactly
eight bytes. -/
theorem matchU64_shape (e : EiData) (input : List Nat) :
    matchU64 e input = some (.noMatch input)
    ∨ ∃ v, matchU64 e input = some (.ok (input.drop 8) v) := by
  match input with
  | [] | [_] | [_, _] | [_, _, _] | [_, _, _, _] | [_, _, _, _, _]
  | [_, _, _, _, _, _] | [_, _, _, _, _, _, _] =>
    exact Or.inl (by cases e <;> rfl)
  | b0 :: b1 :: b2 :: b3 :: b4 :: b5 :: b6 :: b7 :: rest =>
    exact Or.inr ⟨_, matchU64_cons e b0 b1 b2 b3 b4 b5 b6 b7 rest⟩

/-! Claim theorems. -/

/-- Claim C1, counterexample: decoding the bytes produced by serializing
the known-good file header does not yield the header back - the parser
skips the first 16 bytes of the serialized region itself and fails with a
NoMatch. Moreover, even with a 16-byte identification prefix prepended,
the round trip fails for machine AARCH64, whose enum discriminant 0xB7 is
rejected by the TryFrom table (which expects 0xB9). -/
theorem c1_roundtrip_counterexample :
    parseFileHeader32 .Little (serializeFileHeader32 .Little hTest)
      = some (.noMatch ((serializeFileHeader32 .Little hTest).drop 16))
    ∧ parseFileHeader32 .Little
        (List.replicate 16 0 ++ serializeFileHeader32 .Little hAarch)
      = some (.noMatch (serializeFileHeader32 .Little hAarch)) := by
  decide

/-- Claim C1 (amended): for every FileHeader value h with fields in range
of their Rust integer types, whose machine discriminant survives the
TryFrom table (all machines except AARCH64, RISCV and BPF), and for each
supported endianness and width, decoding any 16-byte prefix followed by
the serialization of h yields h again with all input consumed. -/
theorem c1_fileHeader_roundtrip :
    (∀ (e : EiData) (h : FileHeader) (p : List Nat),
        p.length = 16 →
        machineTryFrom (machineToU16 h.machine) = some h.machine →
        h.entry_point < 4294967296 → h.ph_offset < 4294967296 →
        h.sh_offset < 4294967296 → h.flags < 4294967296 →
        h.eh_size < 65536 → h.phent_size < 65536 → h.phnum < 65536 →
        h.shent_size < 65536 → h.shnum < 65536 → h.shstrndx < 65536 →
        parseFileHeader32 e (p ++ serializeFileHeader32 e h)
          = some (.ok [] h))
    ∧ (∀ (e : EiData) (h : FileHeader) (p : List Nat),
        p.length = 16 →
        machineTryFrom (machineToU16 h.machine) = some h.machine →
        h.entry_point < 18446744073709551616 →
        h.ph_offset < 18446744073709551616 →
        h.sh_offset < 18446744073709551616 → h.flags < 4294967296 →
        h.eh_size < 65536 → h.phent_size < 65536 → h.phnum < 65536 →
        h.shent_size < 65536 → h.shnum < 65536 → h.shstrndx < 65536 →
        parseFileHeader64 e (p ++ serializeFileHeader64 e h)
          = some (.ok [] h)) :=
  ⟨fun e h p hp hm h1 h2 h3 h4 h5 h6 h7 h8 h9 h10 =>
      fileHeader_roundtrip32 e h p hp hm h1 h2 h3 h4 h5 h6 h7 h8 h9 h10,
   fun e h p hp hm h1 h2 h3 h4 h5 h6 h7 h8 h9 h10 =>
      fileHeader_roundtrip64 e h p hp hm h1 h2 h3 h4 h5 h6 h7 h8 h9 h10⟩

/-- Claim C1, witness: the amended round trip evaluated at the known-good
test header, in both widths (little-endian 32-bit, big-endian 64-bit). -/
theorem c1_roundtrip_witness :
    parseFileHeader32 .Little
        (List.replicate 16 0 ++ serializeFileHeader32 .Little hTest)
      = some (.ok [] hTest)
    ∧ parseFileHeader64 .Big
        (List.replicate 16 0 ++ serializeFileHeader64 .Big hTest)
      = some (.ok [] hTest) :=
  ⟨c1_fileHeader_roundtrip.1 .Little hTest (List.replicate 16 0)
      (by decide) (by decide) (by decide) (by decide) (by decide) (by decide)
      (by decide) (by decide) (by decide) (by decide) (by decide) (by decide),
   c1_fileHeader_roundtrip.2 .Big hTest (List.replicate 16 0)
      (by decide) (by decide) (by decide) (by decide) (by decide) (by decide)
      (by decide) (by decide) (by decide) (by decide) (by decide) (by decide)⟩

/-- Claim C2 (code bug): decoding truncated input can panic instead of
returning a TruncatedInput error (no such error exists in the code).
The machine parser unwraps a failed array conversion on fewer than two
remaining bytes; the file-header parser slices `&input[16..]` without a
bounds check; a 19-byte buffer (valid identification plus three bytes)
panics the whole ELF pipeline. Panics are modelled as none. -/
theorem c2_truncated_input_panics :
    parseMachine .Little [0x00] = none
    ∧ parseFileHeader32 .Little (List.replicate 15 0) = none
    ∧ parseElfHeader32 .Little (identTestBytes ++ [0x00, 0x00, 0x03]) = none := by
  decide

/-- Claim C3, counterexample: the machine code 0xABCD decodes to a NoMatch
(there is no Machine::Unknown variant), the unknown OS/ABI byte 0x05
decodes to a NoMatch, and the unknown program-header type 0x08 decodes to
a NoMatch - none of them produce an Unknown(raw) value. -/
theorem c3_unknown_counterexample :
    parseMachine .Little [0xCD, 0xAB] = some (.noMatch [0xCD, 0xAB])
    ∧ parseEiOsAbi [0x05] = some (.noMatch [0x05])
    ∧ parseProgramHeaderType .Little [0x08, 0x00, 0x00, 0x00]
      = some (.noMatch [0x08, 0x00, 0x00, 0x00]) := by
  decide

/-- Claim C3 (amended): every unrecognized machine code, OS/ABI byte and
program-header type code makes the corresponding field parser return
NoMatch with the original input (failing the surrounding decode), rather
than decoding to an Unknown(raw) variant - no such variant exists. -/
theorem c3_unknown_codes_fail :
    (∀ (e : EiData) (b0 b1 : Nat) (rest : List Nat),
        machineTryFrom (eVal e [b0, b1]) = none →
        parseMachine e (b0 :: b1 :: rest)
          = some (.noMatch (b0 :: b1 :: rest)))
    ∧ (∀ (b : Nat) (rest : List Nat),
        (∀ a : EiOsAbi, b ≠ osAbiToU8 a) →
        parseEiOsAbi (b :: rest) = some (.noMatch (b :: rest)))
    ∧ (∀ (e : EiData) (v : Nat) (rest : List Nat),
        v < 4294967296 →
        (∀ t : ProgramHeaderType, v ≠ phTypeToU32 t) →
        parseProgramHeaderType e (u32Bytes e v ++ rest)
          = some (.noMatch (u32Bytes e v ++ rest))) := by
  refine ⟨?_, ?_, ?_⟩
  · intro e b0 b1 rest hm
    simp [parseMachine, hm]
  · intro b rest hb
    simp [parseEiOsAbi, pOneOf, pOr, pMap, expectByte,
      hb .SysV, hb .HPUX, hb .NetBSD, hb .Linux, hb .GNUHurd, hb .Solaris,
      hb .AIX, hb .IRIX, hb .FreeBSD, hb .Tru64, hb .Novell, hb .OpenBSD,
      hb .OpenVMS, hb .NonStop, hb .Aros, hb .Fenix, hb .CloudABI,
      hb .OpenVOS]
  · intro e v rest hv ht
    simp [parseProgramHeaderType, pOneOf, pOr, pMap,
      expectU32_encode_ne e _ v rest hv (ht .Null),
      expectU32_encode_ne e _ v rest hv (ht .Load),
      expectU32_encode_ne e _ v rest hv (ht .Dynamic),
      expectU32_encode_ne e _ v rest hv (ht .Interp),
      expectU32_encode_ne e _ v rest hv (ht .Note),
      expectU32_encode_ne e _ v rest hv (ht .ShLib),
      expectU32_encode_ne e _ v rest hv (ht .PhDr),
      expectU32_encode_ne e _ v rest hv (ht .Tls),
      expectU32_encode_ne e _ v rest hv (ht .LoOs),
      expectU32_encode_ne e _ v rest hv (ht .HiOs),
      expectU32_encode_ne e _ v rest hv (ht .LoProc),
      expectU32_encode_ne e _ v rest hv (ht .HiProc),
      expectU32_encode_ne e _ v rest hv (ht .GnuEhFrame),
      expectU32_encode_ne e _ v rest hv (ht .GnuStack),
      expectU32_encode_ne e _ v rest hv (ht .GnuRelro)]

/-- Claim C3, witness: the amended statement evaluated at machine code
0xCDAB (big-endian bytes), OS/ABI byte 0xFF and program-header type 8. -/
theorem c3_unknown_witness :
    parseMachine .Big [0xAB, 0xCD] = some (.noMatch [0xAB, 0xCD])
    ∧ parseEiOsAbi [0xFF] = some (.noMatch [0xFF])
    ∧ parseProgramHeaderType .Little (u32Bytes .Little 8 ++ [])
      = some (.noMatch (u32Bytes .Little 8 ++ [])) :=
  ⟨c3_unknown_codes_fail.1 .Big 0xAB 0xCD [] (by decide),
   c3_unknown_codes_fail.2.1 0xFF [] (by decide),
   c3_unknown_codes_fail.2.2 .Little 8 [] (by decide) (by decide)⟩

/-- Claim C4 (code bug): the unrecognized 32-bit section-type code 0x14
is decoded to ShType.Null by the fallback alternative of ShTypeParser -
it is aliased to Null and the raw code is lost; there is no Unknown
variant. Shown for both endiannesses. -/
theorem c4_shtype_aliased_to_null :
    parseShType .Little [0x14, 0x00, 0x00, 0x00] = some (.ok [] ShType.Null)
    ∧ parseShType .Big [0x00, 0x00, 0x00, 0x14] = some (.ok [] ShType.Null)
    ∧ parseShType .Little [0xFF, 0xFF, 0xFF, 0xFF] = some (.ok [] ShType.Null) := by
  decide

set_option maxRecDepth 100000 in
/-- Claim C5 (code bug): the composite decoder reads the program-header
table at byte 52 (immediately after the file header) and the section
table at byte 84, even though the decoded header declares ph_offset = 10
and sh_offset = 11: the decode of elfBufC5 succeeds and returns exactly
the entries stored at bytes 52 and 84. -/
theorem c5_tables_parsed_sequentially :
    parseElfHeader32 .Little elfBufC5 = some (.ok [] elfC5)
    ∧ elfC5.file_header.ph_offset = 10
    ∧ elfC5.file_header.sh_offset = 11
    ∧ List.drop 52 elfBufC5 = phC5Bytes ++ shC5Bytes
    ∧ List.drop 84 elfBufC5 = shC5Bytes := by
  decide

/-- A successful 32-bit composite decode holds exactly phnum program
headers and shnum section headers, each list being the sequence decoded
slot by slot, in on-disk order: the program headers from the bytes right
after the file header, the section headers from the bytes right after the
program-header table. -/
theorem elf32_table_lengths (e : EiData) (input r : List Nat)
    (elf : ElfHeader32Bit)
    (h : parseElfHeader32 e input = some (.ok r elf)) :
    elf.program_headers.length = elf.file_header.phnum
    ∧ elf.section_headers.length = elf.file_header.shnum
    ∧ ∃ fhRest phRest,
        parseFileHeader32 e input = some (.ok fhRest elf.file_header)
        ∧ DecodesSeq (parseProgramHeader32 e) fhRest elf.program_headers phRest
        ∧ DecodesSeq (parseSectionHeader32 e) phRest elf.section_headers r := by
  simp only [parseElfHeader32] at h
  cases hei : parseEiIdent input with
  | none => rw [hei] at h; simp at h
  | some ms =>
    cases ms with
    | noMatch rem => rw [hei] at h; simp at h
    | ok remi ei =>
      rw [hei] at h
      dsimp only at h
      obtain ⟨trip, hbig, helf⟩ := pMap_ok_inv h
      obtain ⟨r1, v1, hfirst, hsec⟩ := pAndThen_ok_inv hbig
      obtain ⟨shs, hsh, htrip⟩ := pMap_ok_inv hsec
      obtain ⟨r0, fh, hfh, hg⟩ := pAndThen_ok_inv hfirst
      obtain ⟨phs, hph, hv1⟩ := pMap_ok_inv hg
      subst helf htrip hv1
      exact ⟨pTakeN_ok_length hph, pTakeN_ok_length hsh,
        r0, r1, hfh, pTakeN_ok_decodesSeq hph, pTakeN_ok_decodesSeq hsh⟩

/-- A successful 64-bit composite decode holds exactly phnum program
headers and shnum section headers, each list being the sequence decoded
slot by slot, in on-disk order, exactly as in the 32-bit case. -/
theorem elf64_table_lengths (e : EiData) (input r : List Nat)
    (elf : ElfHeader64Bit)
    (h : parseElfHeader64 e input = some (.ok r elf)) :
    elf.program_headers.length = elf.file_header.phnum
    ∧ elf.section_headers.length = elf.file_header.shnum
    ∧ ∃ fhRest phRest,
        parseFileHeader64 e input = some (.ok fhRest elf.file_header)
        ∧ DecodesSeq (parseProgramHeader64 e) fhRest elf.program_headers phRest
        ∧ DecodesSeq (parseSectionHeader64 e) phRest elf.section_headers r := by
  simp only [parseElfHeader64] at h
  cases hei : parseEiIdent input with
  | none => rw [hei] at h; simp at h
  | some ms =>
    cases ms with
    | noMatch rem => rw [hei] at h; simp at h
    | ok remi ei =>
      rw [hei] at h
      dsimp only at h
      obtain ⟨trip, hbig, helf⟩ := pMap_ok_inv h
      obtain ⟨r1, v1, hfirst, hsec⟩ := pAndThen_ok_inv hbig
      obtain ⟨shs, hsh, htrip⟩ := pMap_ok_inv hsec
      obtain ⟨r0, fh, hfh, hg⟩ := pAndThen_ok_inv hfirst
      obtain ⟨phs, hph, hv1⟩ := pMap_ok_inv hg
      subst helf htrip hv1
      exact ⟨pTakeN_ok_length hph, pTakeN_ok_length hsh,
        r0, r1, hfh, pTakeN_ok_decodesSeq hph, pTakeN_ok_decodesSeq hsh⟩

/-- Claim C6: for every buffer whose composite decode succeeds (32-bit or
64-bit, either endianness), the result holds exactly phnum program-header
entries and exactly shnum section-header entries, the counts taken from
the decoded file header, and each sequence preserves on-disk order: the
program-header list is exactly the sequence decoded slot by slot from the
bytes where the file header ended, and the section-header list is the
sequence decoded slot by slot from the bytes where the program-header
table ended. -/
theorem c6_exact_table_counts :
    (∀ (e : EiData) (input r : List Nat) (elf : ElfHeader32Bit),
        parseElfHeader32 e input = some (.ok r elf) →
        elf.program_headers.length = elf.file_header.phnum
        ∧ elf.section_headers.length = elf.file_header.shnum
        ∧ ∃ fhRest phRest,
            parseFileHeader32 e input = some (.ok fhRest elf.file_header)
            ∧ DecodesSeq (parseProgramHeader32 e) fhRest
                elf.program_headers phRest
            ∧ DecodesSeq (parseSectionHeader32 e) phRest
                elf.section_headers r)
    ∧ (∀ (e : EiData) (input r : List Nat) (elf : ElfHeader64Bit),
        parseElfHeader64 e input = some (.ok r elf) →
        elf.program_headers.length = elf.file_header.phnum
        ∧ elf.section_headers.length = elf.file_header.shnum
        ∧ ∃ fhRest phRest,
            parseFileHeader64 e input = some (.ok fhRest elf.file_header)
            ∧ DecodesSeq (parseProgramHeader64 e) fhRest
                elf.program_headers phRest
            ∧ DecodesSeq (parseSectionHeader64 e) phRest
                elf.section_headers r) :=
  ⟨elf32_table_lengths, elf64_table_lengths⟩

/-- Claim C6, witness: counts and on-disk order evaluated on the concrete
124-byte buffer elfBufC5, whose decode succeeds with phnum = shnum = 1. -/
theorem c6_counts_witness :
    elfC5.program_headers.length = elfC5.file_header.phnum
    ∧ elfC5.section_headers.length = elfC5.file_header.shnum
    ∧ ∃ fhRest phRest,
        parseFileHeader32 .Little elfBufC5
          = some (.ok fhRest elfC5.file_header)
        ∧ DecodesSeq (parseProgramHeader32 .Little) fhRest
            elfC5.program_headers phRest
        ∧ DecodesSeq (parseSectionHeader32 .Little) phRest
            elfC5.section_headers [] :=
  c6_exact_table_counts.1 .Little elfBufC5 [] elfC5
    (by set_option maxRecDepth 100000 in decide)

/-- Claim C7 (code bug): the decoded section flags are not a faithful bit
set - the flag parser maps every raw value other than 0x01 to the single
catch-all Other variant, so the distinct masks 0x2 (ALLOC), 0x3
(WRITE or ALLOC) and 0x4 (EXECINSTR) all decode to the same value and the
original bitmask is not recoverable. Shown for both widths. -/
theorem c7_shflags_lossy :
    parseShFlags32 .Little [0x02, 0x00, 0x00, 0x00]
      = some (.ok [] ShFlags32Bit.Other)
    ∧ parseShFlags32 .Little [0x03, 0x00, 0x00, 0x00]
      = some (.ok [] ShFlags32Bit.Other)
    ∧ parseShFlags32 .Little [0x04, 0x00, 0x00, 0x00]
      = some (.ok [] ShFlags32Bit.Other)
    ∧ parseShFlags64 .Little [0x02, 0x00, 0x00, 0x00, 0x00, 0x00, 0x00, 0x00]
      = some (.ok [] ShFlags64Bit.Other)
    ∧ parseShFlags64 .Little [0x06, 0x00, 0x00, 0x00, 0x00, 0x00, 0x00, 0x00]
      = some (.ok [] ShFlags64Bit.Other) := by
  decide

/-- Claim C8: every buffer whose first four bytes differ from
7F 45 4C 46 makes the identification parser, and with it the whole
composite decode at either width and endianness, fail with a NoMatch
(the only failure signal the code has), regardless of the remaining
bytes. -/
theorem c8_bad_magic_fails :
    ∀ input : List Nat, input.take 4 ≠ [0x7f, 0x45, 0x4c, 0x46] →
      parseEiIdent input = some (.noMatch input)
      ∧ (∀ e : EiData, parseElfHeader32 e input = some (.noMatch input))
      ∧ (∀ e : EiData, parseElfHeader64 e input = some (.noMatch input)) := by
  intro input hmagic
  have hident : parseEiIdent input = some (.noMatch input) := by
    have hexp : expectBytes [0x7f, 0x45, 0x4c, 0x46] input
        = some (.noMatch input) := by
      simp only [expectBytes, List.length_cons, List.length_nil]
      rw [if_neg]
      simpa using hmagic
    simp [parseEiIdent, pMap, pRight, pJoin, hexp]
  refine ⟨hident, fun e => ?_, fun e => ?_⟩
  · simp [parseElfHeader32, hident]
  · simp [parseElfHeader64, hident]

/-- Claim C8, witness: a four-zero-byte buffer fails the identification
parse and the 32-bit composite decode. -/
theorem c8_bad_magic_witness :
    parseEiIdent [0, 0, 0, 0] = some (.noMatch [0, 0, 0, 0])
    ∧ parseElfHeader32 .Little [0, 0, 0, 0]
      = some (.noMatch [0, 0, 0, 0]) :=
  ⟨(c8_bad_magic_fails [0, 0, 0, 0] (by decide)).1,
   (c8_bad_magic_fails [0, 0, 0, 0] (by decide)).2.1 .Little⟩

/-- Claim C9: every expect-style matcher returns the original input slice
unmodified on failure, and on success consumes exactly the byte length of
the matched value, returning that value. -/
theorem c9_expect_contract :
    (∀ (lit input : List Nat),
        expectBytes lit input = some (.noMatch input)
        ∨ expectBytes lit input = some (.ok (input.drop lit.length) lit))
    ∧ (∀ (e : EiData) (x : Nat) (input : List Nat),
        expectU16 e x input = some (.noMatch input)
        ∨ expectU16 e x input = some (.ok (input.drop 2) x))
    ∧ (∀ (e : EiData) (x : Nat) (input : List Nat),
        expectU32 e x input = some (.noMatch input)
        ∨ expectU32 e x input = some (.ok (input.drop 4) x))
    ∧ (∀ (e : EiData) (x : Nat) (input : List Nat),
        expectU64 e x input = some (.noMatch input)
        ∨ expectU64 e x input = some (.ok (input.drop 8) x)) := by
  refine ⟨?_, ?_, ?_, ?_⟩
  · intro lit input
    by_cases hc : input.take lit.length = lit
    · exact Or.inr (by simp [expectBytes, hc])
    · exact Or.inl (by simp [expectBytes, hc])
  · intro e x input
    rcases matchU16_shape e input with hs | ⟨v, hs⟩
    · exact Or.inl (by simp [expectU16, hs])
    · by_cases hvx : v = x
      · exact Or.inr (by simp [expectU16, hs, hvx])
      · exact Or.inl (by simp [expectU16, hs, hvx])
  · intro e x input
    rcases matchU32_shape e input with hs | ⟨v, hs⟩
    · exact Or.inl (by simp [expectU32, hs])
    · by_cases hvx : v = x
      · exact Or.inr (by simp [expectU32, hs, hvx])
      · exact Or.inl (by simp [expectU32, hs, hvx])
  · intro e x input
    rcases matchU64_shape e input with hs | ⟨v, hs⟩
    · exact Or.inl (by simp [expectU64, hs])
    · by_cases hvx : v = x
      · exact Or.inr (by simp [expectU64, hs, hvx])
      · exact Or.inl (by simp [expectU64, hs, hvx])

/-- Claim C10: the file-header parsers (both widths) depend only on the
bytes from offset 16 onward: two inputs of length at least 16 that agree
after offset 16 parse identically, whatever their first 16 bytes hold. -/
theorem c10_ident_block_ignored :
    ∀ (e : EiData) (x y : List Nat), 16 ≤ x.length → 16 ≤ y.length →
      x.drop 16 = y.drop 16 →
      parseFileHeader32 e x = parseFileHeader32 e y
      ∧ parseFileHeader64 e x = parseFileHeader64 e y := by
  intro e x y hx hy hdrop
  constructor
  · simp only [parseFileHeader32]
    rw [if_neg (by omega), if_neg (by omega), hdrop]
  · simp only [parseFileHeader64]
    rw [if_neg (by omega), if_neg (by omega), hdrop]

/-- Claim C10, witness: a buffer whose identification block is 16 zero
bytes (invalid magic) parses to the same file header as the buffer with
the valid identification block, since both share the bytes from offset
16 onward. -/
theorem c10_ignored_witness :
    parseFileHeader32 .Little (List.replicate 16 0 ++ fhTestBytes)
      = parseFileHeader32 .Little (identTestBytes ++ fhTestBytes) :=
  (c10_ident_block_ignored .Little (List.replicate 16 0 ++ fhTestBytes)
    (identTestBytes ++ fhTestBytes) (by decide) (by decide) (by decide)).1

end Keebler










